import Mathlib

/-!
# Pokestrator: verification of the routing decision engine and execution lifecycle

Shallow embedding of the core of the Pokestrator orchestrator
(`src/routing.py`, `src/agent.py`, `src/db.py`, `src/poke.py`).

Conventions of the embedding:
* Python strings are Lean `String`s; Python sets of tokens are `Finset String`.
* Machine integers are `Nat`/`Int` (Python integers are unbounded, so no
  wrap-around is modelled); the arbiter confidence (a Python float used only
  for comparisons against a threshold in `[0,1]`) is modelled as `ℚ`.
* External, non-deterministic collaborators (the claude SDK oracle call,
  `json.loads`, uuid generation/validation, the HTTP notification channel)
  are passed in as explicit parameters, mirroring the fact that
  `SubagentRouter` already receives `parse_json_object` etc. by injection.
* Database state (`subagents` and `api_keys` tables) is threaded explicitly
  as a `DBState` value; SQL row operations are modelled on lists, using the
  unique-lower-cased-name invariant enforced by the schema.
* Python's stable `list.sort(key=..., reverse=True)` is modelled by
  `List.insertionSort` with the corresponding total preorder; stability is
  proved, not assumed.
-/

namespace Pokestrator

/-! ## Python string primitives

Lean core's `String.toLower`, `String.trim`, … are defined by well-founded
recursion on byte positions and do not reduce inside the kernel, so the
corresponding Python primitives are modelled on the character list instead
(`String.data` is the structural representation).  Python's `str.lower` /
`str.strip` act on Unicode; the texts manipulated by this program are ASCII
and `Char.toLower` / `Char.isWhitespace` agree with Python there. -/

/-- Python `str.lower()` (ASCII). -/
def pyLower (s : String) : String := String.mk (s.toList.map Char.toLower)

/-- Strip characters satisfying `p` from both ends of a character list. -/
def stripWhile (p : Char → Bool) (cs : List Char) : List Char :=
  ((cs.dropWhile p).reverse.dropWhile p).reverse

/-- Python `str.strip()` (whitespace, ASCII). -/
def pyStrip (s : String) : String :=
  String.mk (stripWhile Char.isWhitespace s.toList)

/-- Python `str.strip("_")`. -/
def pyStripUnderscore (s : String) : String :=
  String.mk (stripWhile (fun c => c = '_') s.toList)

/-- Python string slicing `s[:n]` (by code points). -/
def pyTake (s : String) (n : Nat) : String := String.mk (s.toList.take n)

/-! ## Tokenizer (`routing.py`: `STOP_WORDS`, `SubagentRouter.tokenize`) -/

/-- Stop words from `routing.py`, in source order. -/
def STOP_WORDS : List String :=
  ["a", "an", "and", "are", "as", "at", "for", "from", "how", "i", "in",
   "is", "it", "my", "of", "on", "the", "to", "with", "me", "you", "your"]

/-- A character matched by the Python regex class `[a-z0-9]`
(applied after lower-casing). -/
def isTokChar (c : Char) : Bool :=
  ('a' ≤ c && c ≤ 'z') || ('0' ≤ c && c ≤ '9')

/-- Maximal runs of `[a-z0-9]` characters, i.e. `re.findall(r"[a-z0-9]+", ·)`.
`acc` accumulates the current run in reverse. -/
def tokenRuns : List Char → List Char → List (List Char)
  | [], acc => if acc.isEmpty then [] else [acc.reverse]
  | c :: cs, acc =>
    if isTokChar c then tokenRuns cs (c :: acc)
    else if acc.isEmpty then tokenRuns cs [] else acc.reverse :: tokenRuns cs []

/-- `SubagentRouter.tokenize`: lower-case, extract `[a-z0-9]+` runs, keep
tokens of length `> 2` that are not stop words, as a set. -/
def tokenize (text : String) : Finset String :=
  (((tokenRuns (pyLower text).toList []).map (fun cs => String.mk cs)).filter
    (fun t => 2 < t.length && !(STOP_WORDS.contains t))).toFinset

/-! ## Data model (`db.py`: `Subagent`) -/

/-- `db.Subagent` dataclass. `system_prompt` is the execution playbook the
spec calls `instructions`. -/
structure Subagent where
  id : String
  name : String
  description : String
  system_prompt : String
  status : String
  required_provider : Option String
deriving DecidableEq

/-- A ranked candidate, as built by `SubagentRouter.rank_existing_subagents`
(the dict `{subagent, score, name_hits, description_hits, matched_token_count}`;
the Python code stores the hits as sorted lists, only their sets and
cardinalities are ever used, so we keep the sets). -/
structure RankedCandidate where
  subagent : Subagent
  score : Nat
  name_hits : Finset String
  description_hits : Finset String
  matched_token_count : Nat
deriving DecidableEq

/-- The sort key used by `rank_existing_subagents`:
`(score, matched_token_count, len(name_hits))`. -/
def keyOf (c : RankedCandidate) : Nat × Nat × Nat :=
  (c.score, c.matched_token_count, c.name_hits.card)

/-- Strict lexicographic order on sort keys. -/
def keyLt (a b : Nat × Nat × Nat) : Prop :=
  a.1 < b.1 ∨ (a.1 = b.1 ∧ (a.2.1 < b.2.1 ∨ (a.2.1 = b.2.1 ∧ a.2.2 < b.2.2)))

instance keyLt.instDecidable : ∀ a b : Nat × Nat × Nat, Decidable (keyLt a b) :=
  fun a b => by unfold keyLt; exact inferInstance

/-- `candBefore c d` holds when `c` may precede `d` in the descending sorted
output: the key of `c` is lexicographically ≥ the key of `d`.  Python's
stable descending sort places an earlier-listed element before a
later-listed one exactly when its key is ≥. -/
def candBefore (c d : RankedCandidate) : Prop := ¬ keyLt (keyOf c) (keyOf d)

instance candBefore.instDecidable : ∀ c d, Decidable (candBefore c d) :=
  fun c d => by unfold candBefore; exact inferInstance

instance candBefore.instIsTotal : IsTotal RankedCandidate candBefore := by
  constructor
  intro a b
  unfold candBefore keyLt
  omega

instance candBefore.instIsTrans : IsTrans RankedCandidate candBefore := by
  constructor
  intro a b c hab hbc
  unfold candBefore keyLt at *
  omega

/-- `ranked.sort(key=..., reverse=True)` — Python's stable sort, descending
by `keyOf`.  Insertion sort with the total preorder `candBefore` computes
exactly the stable descending order (stability is proved below). -/
def sortCands (l : List RankedCandidate) : List RankedCandidate :=
  List.insertionSort candBefore l

/-- The candidate entry built for one subagent inside the ranking loop of
`rank_existing_subagents` (`name_hits`, `description_hits`, `matched_tokens`,
`score = len(name_hits) * 3 + len(description_hits)`). -/
def candidateOf (task_tokens : Finset String) (subagent : Subagent) :
    RankedCandidate :=
  let name_hits := task_tokens ∩ tokenize subagent.name
  let description_hits := task_tokens ∩ tokenize subagent.description
  let matched_tokens := name_hits ∪ description_hits
  RankedCandidate.mk subagent (name_hits.card * 3 + description_hits.card)
    name_hits description_hits matched_tokens.card

/-- `SubagentRouter.rank_existing_subagents`: empty token set short-circuits
to `[]`; otherwise build a candidate per subagent, drop `score <= 0`, and
stable-sort descending by `(score, matched_token_count, len(name_hits))`. -/
def rank_existing_subagents (task : String) (subagents : List Subagent) :
    List RankedCandidate :=
  let task_tokens := tokenize task
  if task_tokens = ∅ then []
  else
    sortCands ((subagents.map (candidateOf task_tokens)).filter
      (fun c => decide (0 < c.score)))

/-! ## Confidence gate and route decision (`routing.py`) -/

/-- The router configuration relevant to routing decisions
(`SubagentRouter.__init__` fields).  `sdk_available` models
`claude_sdk is not None`. -/
structure RouterConfig where
  route_min_score : Int
  route_confident_score : Int
  route_confident_margin : Int
  route_llm_enabled : Bool
  route_llm_top_k : Nat
  route_llm_min_confidence : ℚ
  sdk_available : Bool
deriving DecidableEq

/-- The `second_score` computed by `is_confident_ranked_match` and
`decide_route`: score of the second ranked candidate, `0` when only one
candidate exists. -/
def secondOf (rest : List RankedCandidate) : Int :=
  match rest with
  | [] => 0
  | second :: _ => second.score

/-- `SubagentRouter.is_confident_ranked_match`. -/
def is_confident_ranked_match (cfg : RouterConfig)
    (ranked_matches : List RankedCandidate) : Bool :=
  match ranked_matches with
  | [] => false
  | top :: rest =>
    decide (cfg.route_confident_score ≤ (top.score : Int)) &&
      decide (cfg.route_confident_margin ≤ (top.score : Int) - secondOf rest) &&
      decide (2 ≤ top.matched_token_count)

/-- The routing decision: `{"branch": "match", "subagent": ...}` or
`{"branch": "build_new", "new_subagent_name": ...}`. -/
inductive RouteDecision where
  | matched (subagent : Subagent)
  | build_new (new_subagent_name : String)
deriving DecidableEq

/-- `SubagentRouter.decide_route`.  The arbiter
(`llm_validate_ranked_match`, an awaited oracle consultation) is passed in
as a function `arbiter` from the task text and the offered candidates to an
optional confirmed subagent. -/
def decide_route (cfg : RouterConfig)
    (arbiter : String → List RankedCandidate → Option Subagent)
    (task_description : String) (subagents : List Subagent)
    (build_new_subagent_name : String → String) : RouteDecision :=
  match rank_existing_subagents (pyLower task_description) subagents with
  | [] => RouteDecision.build_new (build_new_subagent_name task_description)
  | top :: rest =>
    if cfg.route_min_score ≤ (top.score : Int) then
      if is_confident_ranked_match cfg (top :: rest) then
        RouteDecision.matched top.subagent
      else
        match arbiter task_description ((top :: rest).take cfg.route_llm_top_k) with
        | some llm_match => RouteDecision.matched llm_match
        | none => RouteDecision.build_new (build_new_subagent_name task_description)
    else RouteDecision.build_new (build_new_subagent_name task_description)

/-! ## Properties of the stable descending sort -/

theorem sortCands_perm (l : List RankedCandidate) : (sortCands l).Perm l :=
  List.perm_insertionSort candBefore l

theorem sortCands_sorted (l : List RankedCandidate) :
    (sortCands l).Pairwise candBefore :=
  List.sorted_insertionSort candBefore l

/-- Inserting `a` never reorders the elements of any fixed key class, and `a`
lands in front of its own key class (the elements `orderedInsert` skips have
strictly greater keys). -/
theorem filter_key_orderedInsert (k : Nat × Nat × Nat) (a : RankedCandidate) :
    ∀ l : List RankedCandidate,
      (List.orderedInsert candBefore a l).filter (fun c => decide (keyOf c = k)) =
        if keyOf a = k then a :: l.filter (fun c => decide (keyOf c = k))
        else l.filter (fun c => decide (keyOf c = k))
  | [] => by
    simp only [List.orderedInsert, List.filter]
    by_cases hk : keyOf a = k <;> simp [hk]
  | b :: bs => by
    simp only [List.orderedInsert]
    by_cases hab : candBefore a b
    · rw [if_pos hab]
      by_cases hk : keyOf a = k <;> simp [List.filter, hk]
    · rw [if_neg hab]
      have hlt : keyLt (keyOf a) (keyOf b) := not_not.mp hab
      have hbk : keyOf b = k → keyOf a ≠ k := by
        intro hb ha
        rw [hb] at hlt
        rw [ha] at hlt
        unfold keyLt at hlt
        omega
      have ih := filter_key_orderedInsert k a bs
      by_cases hb : keyOf b = k
      · have ha : keyOf a ≠ k := hbk hb
        rw [if_neg ha] at ih ⊢
        simp [List.filter, hb, ih]
      · by_cases ha : keyOf a = k
        · rw [if_pos ha] at ih ⊢
          simp [List.filter, hb, ih]
        · rw [if_neg ha] at ih ⊢
          simp [List.filter, hb, ih]

/-- Stability: for every key value, the sorted output lists the candidates of
that key class in exactly the original order. -/
theorem filter_key_sortCands (k : Nat × Nat × Nat) :
    ∀ l : List RankedCandidate,
      (sortCands l).filter (fun c => decide (keyOf c = k)) =
        l.filter (fun c => decide (keyOf c = k))
  | [] => rfl
  | a :: l => by
    unfold sortCands List.insertionSort
    rw [filter_key_orderedInsert k a (List.insertionSort candBefore l)]
    have ih := filter_key_sortCands k l
    unfold sortCands at ih
    by_cases ha : keyOf a = k
    · simp [List.filter, ha, ih]
    · simp [List.filter, ha, ih]

/-! ## Claims C2 and C1 -/

/-- **C2**: for every task and capability list, `rank()` computes per
candidate `nameHits = tokens(task) ∩ tokens(name)`,
`descriptionHits = tokens(task) ∩ tokens(description)`,
`score = 3·|nameHits| + |descriptionHits|`, drops every candidate with
`score ≤ 0` (so no returned candidate has `score ≤ 0`), and returns the rest
sorted non-increasing by the key `(score, matchedTokenCount, |nameHits|)`,
with exact ties kept in the capabilities' original (registration) order:
the output is a permutation of the kept candidates and, for every key value,
lists that key class in the original order. -/
theorem claim_C2_rank (task : String) (subagents : List Subagent) :
    (∀ c ∈ rank_existing_subagents task subagents,
        c.name_hits = tokenize task ∩ tokenize c.subagent.name ∧
        c.description_hits = tokenize task ∩ tokenize c.subagent.description ∧
        c.score = 3 * c.name_hits.card + c.description_hits.card ∧
        c.matched_token_count = (c.name_hits ∪ c.description_hits).card ∧
        0 < c.score) ∧
    (rank_existing_subagents task subagents).Pairwise
      (fun a b => ¬ keyLt (keyOf a) (keyOf b)) ∧
    (rank_existing_subagents task subagents).Perm
      ((subagents.map (candidateOf (tokenize task))).filter
        (fun c => decide (0 < c.score))) ∧
    (∀ k, (rank_existing_subagents task subagents).filter
        (fun c => decide (keyOf c = k)) =
      ((subagents.map (candidateOf (tokenize task))).filter
        (fun c => decide (0 < c.score))).filter (fun c => decide (keyOf c = k))) := by
  have hkept : ∀ (h : tokenize task = ∅),
      (subagents.map (candidateOf (tokenize task))).filter
        (fun c => decide (0 < c.score)) = [] := by
    intro h
    rw [List.filter_eq_nil_iff]
    intro c hc
    rcases List.mem_map.mp hc with ⟨s, _, rfl⟩
    simp [candidateOf, h]
  constructor
  · intro c hc
    unfold rank_existing_subagents at hc
    by_cases h : tokenize task = ∅
    · rw [if_pos h] at hc
      cases hc
    · rw [if_neg h] at hc
      have hc' := (sortCands_perm _).mem_iff.mp hc
      rcases List.mem_filter.mp hc' with ⟨hcm, hcs⟩
      rcases List.mem_map.mp hcm with ⟨s, _, rfl⟩
      refine ⟨rfl, rfl, by simp [candidateOf]; ring, rfl, ?_⟩
      exact of_decide_eq_true hcs
  refine ⟨?_, ?_, ?_⟩
  · unfold rank_existing_subagents
    by_cases h : tokenize task = ∅
    · rw [if_pos h]; exact List.Pairwise.nil
    · rw [if_neg h]; exact sortCands_sorted _
  · unfold rank_existing_subagents
    by_cases h : tokenize task = ∅
    · rw [if_pos h, hkept h]
    · rw [if_neg h]; exact sortCands_perm _
  · intro k
    unfold rank_existing_subagents
    by_cases h : tokenize task = ∅
    · rw [if_pos h, hkept h]
    · rw [if_neg h]; exact filter_key_sortCands k _

/-- Witness for C2 at a concrete input: one registered capability matching
the task on two name tokens and two description tokens. -/
theorem claim_C2_rank_witness :
    (Subagent.mk "1" "stripe_payments_checker"
        "checks stripe payments and refunds" "p" "ready" none |> fun sub =>
      rank_existing_subagents "check stripe payments" [sub] = [candidateOf
        (tokenize "check stripe payments") sub] ∧
      ∀ c ∈ rank_existing_subagents "check stripe payments" [sub],
        c.score = 3 * c.name_hits.card + c.description_hits.card ∧ 0 < c.score) := by
  refine ⟨by decide, fun c hc => ?_⟩
  have h := (claim_C2_rank "check stripe payments"
    [Subagent.mk "1" "stripe_payments_checker"
      "checks stripe payments and refunds" "p" "ready" none]).1 c hc
  exact ⟨h.2.2.1, h.2.2.2.2⟩

/-- **C1**: the routing decision is classified exactly by the thresholds
(assuming, as `PokestratorOrchestrator.__init__` enforces with
`route_confident_score = max(route_min_score, ...)`, that the confident
threshold is at least the minimum threshold): empty ranking (in particular an
empty task token set) or top score below `routeMinScore` gives build-new; a
confident top (score ≥ `routeConfidentScore`, margin ≥
`routeConfidentMargin`, ≥ 2 matched tokens) is returned without consulting
the arbiter; otherwise the decision escalates to the arbiter with at most
`routeLlmTopK` candidates, matching iff the arbiter confirms a candidate. -/
theorem claim_C1_decide_route (cfg : RouterConfig)
    (hms : cfg.route_min_score ≤ cfg.route_confident_score)
    (arbiter : String → List RankedCandidate → Option Subagent)
    (task_description : String) (subagents : List Subagent)
    (build_new_subagent_name : String → String) :
    (tokenize (pyLower task_description) = ∅ →
      rank_existing_subagents (pyLower task_description) subagents = []) ∧
    (rank_existing_subagents (pyLower task_description) subagents = [] →
      decide_route cfg arbiter task_description subagents build_new_subagent_name =
        RouteDecision.build_new (build_new_subagent_name task_description)) ∧
    (∀ top rest,
      rank_existing_subagents (pyLower task_description) subagents = top :: rest →
      ((top.score : Int) < cfg.route_min_score →
        decide_route cfg arbiter task_description subagents build_new_subagent_name =
          RouteDecision.build_new (build_new_subagent_name task_description)) ∧
      (cfg.route_confident_score ≤ (top.score : Int) →
        cfg.route_confident_margin ≤ (top.score : Int) - secondOf rest →
        2 ≤ top.matched_token_count →
        ∀ arbiter',
          decide_route cfg arbiter' task_description subagents
            build_new_subagent_name = RouteDecision.matched top.subagent) ∧
      (cfg.route_min_score ≤ (top.score : Int) →
        ¬(cfg.route_confident_score ≤ (top.score : Int) ∧
          cfg.route_confident_margin ≤ (top.score : Int) - secondOf rest ∧
          2 ≤ top.matched_token_count) →
        (decide_route cfg arbiter task_description subagents
            build_new_subagent_name =
          match arbiter task_description
              ((top :: rest).take cfg.route_llm_top_k) with
          | some llm_match => RouteDecision.matched llm_match
          | none =>
            RouteDecision.build_new (build_new_subagent_name task_description)) ∧
        ((top :: rest).take cfg.route_llm_top_k).length ≤
          cfg.route_llm_top_k)) := by
  refine ⟨?_, ?_, ?_⟩
  · intro h
    unfold rank_existing_subagents
    rw [if_pos h]
  · intro h
    unfold decide_route
    rw [h]
  · intro top rest hr
    have hconf : is_confident_ranked_match cfg (top :: rest) = true ↔
        (cfg.route_confident_score ≤ (top.score : Int) ∧
          cfg.route_confident_margin ≤ (top.score : Int) - secondOf rest ∧
          2 ≤ top.matched_token_count) := by
      unfold is_confident_ranked_match
      simp [Bool.and_eq_true, decide_eq_true_iff, and_assoc]
    refine ⟨?_, ?_, ?_⟩
    · intro hlt
      unfold decide_route
      rw [hr]
      dsimp only
      rw [if_neg (by omega)]
    · intro h1 h2 h3 arbiter'
      unfold decide_route
      rw [hr]
      dsimp only
      rw [if_pos (by omega)]
      rw [if_pos (hconf.mpr ⟨h1, h2, h3⟩)]
    · intro hmin hnc
      have hncb : ¬ is_confident_ranked_match cfg (top :: rest) = true := by
        intro hb
        exact hnc (hconf.mp hb)
      constructor
      · unfold decide_route
        rw [hr]
        dsimp only
        rw [if_pos hmin]
        rw [if_neg hncb]
      · exact List.length_take_le _ _

/-- Witness for C1 at concrete inputs: default thresholds
`(min, confident, margin, topK) = (2, 7, 4, 3)`; a single strong candidate is
matched confidently (for an arbiter that always declines), and an empty-token
task routes to build-new. -/
theorem claim_C1_decide_route_witness :
    (RouterConfig.mk 2 7 4 true 3 (6/10) true |> fun cfg =>
      (Subagent.mk "1" "stripe_payments_checker"
          "checks stripe payments and refunds" "p" "ready" none |> fun sub =>
        decide_route cfg (fun _ _ => none) "check stripe payments" [sub]
            (fun _ => "auto_fallback") = RouteDecision.matched sub) ∧
      decide_route cfg (fun _ _ => none) "to the" []
          (fun _ => "auto_to_the") = RouteDecision.build_new "auto_to_the") := by
  refine ⟨?_, ?_⟩
  · have h := (claim_C1_decide_route (RouterConfig.mk 2 7 4 true 3 (6/10) true)
      (by decide) (fun _ _ => none) "check stripe payments"
      [Subagent.mk "1" "stripe_payments_checker"
        "checks stripe payments and refunds" "p" "ready" none]
      (fun _ => "auto_fallback")).2.2
    have h2 := (h (candidateOf (tokenize "check stripe payments")
        (Subagent.mk "1" "stripe_payments_checker"
          "checks stripe payments and refunds" "p" "ready" none)) []
      (by decide)).2.1
    exact h2 (by decide) (by decide) (by decide) (fun _ _ => none)
  · have h := (claim_C1_decide_route (RouterConfig.mk 2 7 4 true 3 (6/10) true)
      (by decide) (fun _ _ => none) "to the" [] (fun _ => "auto_to_the")).2.1
    exact h (by decide)

/-! ## JSON values and the arbiter client
(`routing.py`: `SubagentRouter.llm_validate_ranked_match`,
`normalize_confidence`)

`parse_json_object` is an injected dependency of `SubagentRouter` (type
`ParseJsonObject = Callable[[str], dict | None]`), so it is a function
parameter here as well; its output, a Python dict produced by `json.loads`,
is modelled as an association list of JSON values. -/

/-- A JSON value as produced by `json.loads`. -/
inductive JsonVal where
  | null
  | bool (b : Bool)
  | num (q : ℚ)
  | str (s : String)
  | arr (items : List JsonVal)
  | obj (fields : List (String × JsonVal))

/-- A parsed JSON object: the association list of its fields. -/
abbrev JsonObj := List (String × JsonVal)

/-- Python `dict.get(key)` on a parsed object (`None` when absent). -/
def lookupField (fields : JsonObj) (key : String) : Option JsonVal :=
  (fields.find? (fun kv => kv.1 == key)).map (fun kv => kv.2)

/-- Python `str(·)` on a JSON value.  Scalars are modelled faithfully
(`None`/`True`/`False`/the string itself); the reprs of numbers and
containers — never produced by a well-typed oracle response, and never equal
to a bare word like `"match"` — are modelled coarsely. -/
def pyStr : JsonVal → String
  | .null => "None"
  | .bool true => "True"
  | .bool false => "False"
  | .num q => toString q
  | .str s => s
  | .arr _ => "[...]"
  | .obj _ => "{...}"

/-- `str(parsed.get(key, ""))`. -/
def pyStrOfField (fields : JsonObj) (key : String) : String :=
  match lookupField fields key with
  | none => ""
  | some v => pyStr v

/-- Decimal digit. -/
def isDigitChar (c : Char) : Bool := '0' ≤ c && c ≤ '9'

/-- Value of a digit run. -/
def digitsToNat (cs : List Char) : Nat :=
  cs.foldl (fun acc c => acc * 10 + (c.toNat - 48)) 0

/-- Model of Python `float(str)` on plain decimal literals (optional sign,
digits, at most one dot); the oracle contract's `confidence` is a plain
decimal, exponent/infinity forms are not modelled.  `none` models a raised
`ValueError`. -/
def parseFloat (s : String) : Option ℚ :=
  let cs := stripWhile Char.isWhitespace s.toList
  let signAndRest : Int × List Char :=
    match cs with
    | '-' :: r => (-1, r)
    | '+' :: r => (1, r)
    | _ => (1, cs)
  let intPart := signAndRest.2.takeWhile (fun c => c ≠ '.')
  match signAndRest.2.dropWhile (fun c => c ≠ '.') with
  | [] =>
    if intPart.isEmpty || !intPart.all isDigitChar then none
    else some (mkRat (signAndRest.1 * digitsToNat intPart) 1)
  | _ :: fracPart =>
    if (intPart.isEmpty && fracPart.isEmpty) ||
        !intPart.all isDigitChar || !fracPart.all isDigitChar then none
    else
      some (mkRat (signAndRest.1 *
          (digitsToNat intPart * 10 ^ fracPart.length + digitsToNat fracPart))
        (10 ^ fracPart.length))

/-- Python `float(value)` on a JSON value (`bool` is numeric in Python;
`None` and containers raise). -/
def pyFloat : JsonVal → Option ℚ
  | .num q => some q
  | .bool b => some (if b then 1 else 0)
  | .str s => parseFloat s
  | _ => none

/-- `SubagentRouter.normalize_confidence`: `float(value)` clamped to
`[0, 1]` (`min(1.0, max(0.0, number))`, written with explicit comparisons
so that it evaluates inside the kernel), with any conversion error mapped
to `0.0`. -/
def normalize_confidence (v : JsonVal) : ℚ :=
  match pyFloat v with
  | none => 0
  | some q => if q < 0 then 0 else if 1 < q then 1 else q

/-- The `by_name` dict of `llm_validate_ranked_match`
(`by_name[subagent.name.lower()] = subagent`, later entries overwrite
earlier ones) followed by `by_name.get(key)`. -/
def by_name_get (ranked_matches : List RankedCandidate) (key : String) :
    Option Subagent :=
  (((ranked_matches.map
      (fun item => (pyLower item.subagent.name, item.subagent))).reverse.find?
    (fun kv => kv.1 == key)).map (fun kv => kv.2))

/-- `SubagentRouter.llm_validate_ranked_match`.  The oracle call
(`claude_sdk.query` + `collect_response_text` under `asyncio.wait_for`) is a
parameter: `Except.error` models any exception or timeout of that call. -/
def llm_validate_ranked_match (cfg : RouterConfig)
    (parse_json_object : String → Option JsonObj)
    (ranked_matches : List RankedCandidate)
    (oracle_response : Except Unit String) : Option Subagent :=
  if ranked_matches.isEmpty then none
  else if !cfg.route_llm_enabled then none
  else if !cfg.sdk_available then none
  else
    match oracle_response with
    | .error _ => none
    | .ok response_text =>
      match parse_json_object response_text with
      | none => none
      | some parsed =>
        if parsed.isEmpty then none
        else
          let decision := pyLower (pyStrip (pyStrOfField parsed "decision"))
          let selected_name := pyStrip (pyStrOfField parsed "selected_name")
          let confidence :=
            normalize_confidence ((lookupField parsed "confidence").getD .null)
          if decision ≠ "match" then none
          else if confidence < cfg.route_llm_min_confidence then none
          else by_name_get ranked_matches (pyLower selected_name)

theorem by_name_get_isSome (ranked_matches : List RankedCandidate)
    (key : String) :
    (by_name_get ranked_matches key).isSome = true ↔
      ∃ c ∈ ranked_matches, pyLower c.subagent.name = key := by
  unfold by_name_get
  simp only [Option.isSome_map', List.find?_isSome]
  constructor
  · rintro ⟨kv, hmem, hp⟩
    rcases List.mem_map.mp (List.mem_reverse.mp hmem) with ⟨c, hc, rfl⟩
    exact ⟨c, hc, by simpa using hp⟩
  · rintro ⟨c, hc, hk⟩
    exact ⟨(pyLower c.subagent.name, c.subagent),
      List.mem_reverse.mpr (List.mem_map.mpr ⟨c, hc, rfl⟩), by simpa using hk⟩

theorem by_name_get_mem (ranked_matches : List RankedCandidate)
    (key : String) (s : Subagent) (h : by_name_get ranked_matches key = some s) :
    ∃ c ∈ ranked_matches, s = c.subagent ∧ pyLower c.subagent.name = key := by
  unfold by_name_get at h
  rcases Option.map_eq_some'.mp h with ⟨kv, hfind, hs⟩
  have hmem := List.mem_reverse.mp (List.mem_of_find?_eq_some hfind)
  have hp := List.find?_some hfind
  rcases List.mem_map.mp hmem with ⟨c, hc, rfl⟩
  exact ⟨c, hc, hs.symm, by simpa using hp⟩

theorem normalize_confidence_bounds (v : JsonVal) :
    0 ≤ normalize_confidence v ∧ normalize_confidence v ≤ 1 := by
  unfold normalize_confidence
  rcases h : pyFloat v with _ | q
  · norm_num
  · by_cases h0 : q < 0
    · simp [h0]
    · by_cases h1 : 1 < q
      · simp [h0, h1]
      · simp only [h0, h1, if_false]
        exact ⟨le_of_not_lt h0, le_of_not_lt h1⟩

/-- Concrete inputs exercising the arbiter client. -/
def c3Subagent : Subagent := Subagent.mk "1" "foo" "d" "p" "ready" none

/-- A ranked candidate list offering only `c3Subagent`. -/
def c3Ranked : List RankedCandidate :=
  [RankedCandidate.mk c3Subagent 5 ∅ ∅ 2]

/-- An oracle response whose `decision` is `" Match "` (not the exact string
`"match"`) and whose `selected_name` is `" FOO "` (not case-insensitively
equal to the offered name `"foo"` because of the surrounding whitespace). -/
def c3Response : JsonObj :=
  [("decision", JsonVal.str " Match "), ("selected_name", JsonVal.str " FOO "),
   ("confidence", JsonVal.num (mkRat 9 10))]

/-- Default router configuration
`(min, confident, margin, topK, minConfidence) = (2, 7, 4, 3, 0.6)`. -/
def c3Config : RouterConfig := RouterConfig.mk 2 7 4 true 3 (mkRat 6 10) true

/-- **C3, counterexample**: the claim states that a match is returned only if
the `decision` field equals `"match"` and `selected_name` case-insensitively
equals an offered candidate's name.  On this concrete response the code
strips and lower-cases both fields first: `decision = " Match "` and
`selected_name = " FOO "` are accepted, and the offered subagent is
returned, although the `decision` field differs from `"match"` and
`" FOO "` is not case-insensitively equal to `"foo"`. -/
theorem claim_C3_counterexample :
    llm_validate_ranked_match c3Config (fun _ => some c3Response) c3Ranked
        (Except.ok "reply") = some c3Subagent ∧
    lookupField c3Response "decision" = some (JsonVal.str " Match ") ∧
    (" Match " : String) ≠ "match" ∧
    pyLower " FOO " ≠ pyLower "foo" := by
  exact ⟨by decide, rfl, by decide, by decide⟩

/-- **C3 (amended)**: for every arbiter invocation on a non-empty candidate
list whose parsed response carries string-typed `decision`/`selected_name`
fields (when present), a match is returned iff the arbiter is enabled, the
SDK is available, the oracle call succeeded, the response parses to a
non-empty JSON object whose `decision` field is a string that equals
`"match"` after stripping whitespace and lower-casing, whose confidence
(clamped to `[0,1]`, non-numeric treated as `0.0`) is at least
`routeLlmMinConfidence`, and whose stripped `selected_name`
case-insensitively equals the name of one of the offered candidates; any
returned subagent is one of the offered candidates, and in every other case
(including oracle exception/timeout, modelled by `Except.error`) the
arbiter returns no match.  The clamping bounds on the confidence are part
of the statement. -/
theorem claim_C3_arbiter (cfg : RouterConfig)
    (parse_json_object : String → Option JsonObj)
    (ranked_matches : List RankedCandidate)
    (oracle_response : Except Unit String)
    (hne : ranked_matches ≠ [])
    (hwt : ∀ text parsed, oracle_response = Except.ok text →
      parse_json_object text = some parsed →
      (∀ v, lookupField parsed "decision" = some v → ∃ s, v = JsonVal.str s) ∧
      (∀ v, lookupField parsed "selected_name" = some v →
        ∃ s, v = JsonVal.str s)) :
    ((llm_validate_ranked_match cfg parse_json_object ranked_matches
        oracle_response).isSome = true ↔
      (cfg.route_llm_enabled = true ∧ cfg.sdk_available = true ∧
        ∃ text parsed, oracle_response = Except.ok text ∧
          parse_json_object text = some parsed ∧ parsed ≠ [] ∧
          (∃ ds, lookupField parsed "decision" = some (JsonVal.str ds) ∧
            pyLower (pyStrip ds) = "match") ∧
          cfg.route_llm_min_confidence ≤
            normalize_confidence ((lookupField parsed "confidence").getD .null) ∧
          ∃ c ∈ ranked_matches, pyLower c.subagent.name =
            pyLower (pyStrip (pyStrOfField parsed "selected_name")))) ∧
    (∀ s, llm_validate_ranked_match cfg parse_json_object ranked_matches
        oracle_response = some s → ∃ c ∈ ranked_matches, s = c.subagent) ∧
    (∀ v, 0 ≤ normalize_confidence v ∧ normalize_confidence v ≤ 1) := by
  refine ⟨?_, ?_, normalize_confidence_bounds⟩
  all_goals
    unfold llm_validate_ranked_match
    rw [if_neg (by simpa [List.isEmpty_iff] using hne)]
  case _ =>
    by_cases he : cfg.route_llm_enabled
    case neg =>
      rw [Bool.not_eq_true] at he
      simp [he]
    case pos =>
      by_cases hs : cfg.sdk_available
      case neg =>
        rw [Bool.not_eq_true] at hs
        simp [he, hs]
      case pos =>
        rw [he, hs]
        simp only [Bool.not_true, Bool.false_eq_true, if_false]
        rcases oracle_response with _ | text
        · simp
        · dsimp only
          rcases hp : parse_json_object text with _ | parsed
          · simp only [Option.isSome_none, Bool.false_eq_true, false_iff]
            rintro ⟨-, -, t, p, ht, hpp, -⟩
            injection ht with ht'
            subst ht'
            rw [hp] at hpp
            exact Option.noConfusion hpp
          · have hfields := hwt text parsed rfl hp
            dsimp only
            by_cases hemp : parsed.isEmpty
            · rw [if_pos hemp]
              simp only [Option.isSome_none, Bool.false_eq_true, false_iff]
              rintro ⟨-, -, t, p, ht, hpp, hpne, -⟩
              injection ht with ht'
              subst ht'
              rw [hp] at hpp
              obtain rfl := Option.some_inj.mp hpp
              exact hpne (List.isEmpty_iff.mp hemp)
            · rw [if_neg hemp]
              by_cases hd : pyLower (pyStrip (pyStrOfField parsed "decision")) =
                  "match"
              · rw [if_neg (by simpa using hd)]
                by_cases hc : normalize_confidence
                    ((lookupField parsed "confidence").getD .null) <
                    cfg.route_llm_min_confidence
                · rw [if_pos hc]
                  simp only [Option.isSome_none, Bool.false_eq_true, false_iff]
                  rintro ⟨-, -, t, p, ht, hpp, -, -, hconf, -⟩
                  injection ht with ht'
                  subst ht'
                  rw [hp] at hpp
                  obtain rfl := Option.some_inj.mp hpp
                  exact absurd hconf (not_le.mpr hc)
                · rw [if_neg hc]
                  rw [by_name_get_isSome]
                  constructor
                  · rintro ⟨c, hcm, hck⟩
                    refine ⟨trivial, trivial, text, parsed, rfl, hp,
                      fun h => hemp (List.isEmpty_iff.mpr h), ?_, not_lt.mp hc,
                      c, hcm, hck⟩
                    rcases hl : lookupField parsed "decision" with _ | v
                    · exfalso
                      have hempty : pyStrOfField parsed "decision" = "" := by
                        unfold pyStrOfField
                        rw [hl]
                      rw [hempty] at hd
                      exact (by decide : pyLower (pyStrip "") ≠ "match") hd
                    · rcases hfields.1 v hl with ⟨ds, rfl⟩
                      refine ⟨ds, rfl, ?_⟩
                      have hds : pyStrOfField parsed "decision" = ds := by
                        unfold pyStrOfField
                        rw [hl]
                        rfl
                      rw [← hds]
                      exact hd
                  · rintro ⟨-, -, t, p, ht, hpp, -, -, -, c, hcm, hck⟩
                    injection ht with ht'
                    subst ht'
                    rw [hp] at hpp
                    obtain rfl := Option.some_inj.mp hpp
                    exact ⟨c, hcm, hck⟩
              · rw [if_pos (by simpa using hd)]
                simp only [Option.isSome_none, Bool.false_eq_true, false_iff]
                rintro ⟨-, -, t, p, ht, hpp, -, ⟨ds, hl, hds⟩, -⟩
                injection ht with ht'
                subst ht'
                rw [hp] at hpp
                obtain rfl := Option.some_inj.mp hpp
                apply hd
                unfold pyStrOfField
                rw [hl]
                exact hds
  case _ =>
    intro s hres
    by_cases he : cfg.route_llm_enabled
    case neg =>
      rw [Bool.not_eq_true] at he
      simp [he] at hres
    case pos =>
      by_cases hsd : cfg.sdk_available
      case neg =>
        rw [Bool.not_eq_true] at hsd
        simp [he, hsd] at hres
      case pos =>
        rw [he, hsd] at hres
        simp only [Bool.not_true, Bool.false_eq_true, if_false] at hres
        rcases oracle_response with _ | text
        · exact Option.noConfusion hres
        · dsimp only at hres
          rcases hp : parse_json_object text with _ | parsed
          · rw [hp] at hres
            exact Option.noConfusion hres
          · rw [hp] at hres
            dsimp only at hres
            by_cases hemp : parsed.isEmpty
            · rw [if_pos hemp] at hres
              exact Option.noConfusion hres
            · rw [if_neg hemp] at hres
              by_cases hd : pyLower (pyStrip (pyStrOfField parsed "decision")) =
                  "match"
              · rw [if_neg (by simpa using hd)] at hres
                by_cases hc : normalize_confidence
                    ((lookupField parsed "confidence").getD .null) <
                    cfg.route_llm_min_confidence
                · rw [if_pos hc] at hres
                  exact Option.noConfusion hres
                · rw [if_neg hc] at hres
                  rcases by_name_get_mem _ _ _ hres with ⟨c, hcm, hcs, -⟩
                  exact ⟨c, hcm, hcs⟩
              · rw [if_pos (by simpa using hd)] at hres
                exact Option.noConfusion hres

/-- Witness for the amended C3 at the concrete inputs above: the candidate
list is non-empty, the response fields are string-typed, and the returned
subagent is one of the offered candidates. -/
theorem claim_C3_arbiter_witness :
    ∃ c ∈ c3Ranked, c3Subagent = c.subagent := by
  have h := (claim_C3_arbiter c3Config (fun _ => some c3Response) c3Ranked
    (Except.ok "reply") (by decide) ?_).2.1 c3Subagent (by decide)
  · exact h
  · intro text parsed _ hp
    obtain rfl := Option.some_inj.mp hp
    constructor
    · intro v hv
      rw [show lookupField c3Response "decision" = some (JsonVal.str " Match ")
        from rfl] at hv
      exact ⟨" Match ", (Option.some_inj.mp hv).symm⟩
    · intro v hv
      rw [show lookupField c3Response "selected_name" =
        some (JsonVal.str " FOO ") from rfl] at hv
      exact ⟨" FOO ", (Option.some_inj.mp hv).symm⟩

/-! ## The registry (`db.py`)

The two tables (`subagents`, `api_keys`) are modelled as lists in insertion
order (`INSERT` appends; the schema's unique index on `LOWER(name)` makes
`fetchrow` deterministic).  `uuid.uuid4()` (fresh id generation) and
`uuid.UUID(...)` validation are external library behaviour and are passed
in (`new_id` / `uuid_valid`).  Raised `ValueError`s are `Except.error`. -/

/-- The database state: the `subagents` table (in `created_at` order, which
`get_all_subagents` returns) and the `api_keys` table. -/
structure DBState where
  subagents : List Subagent
  api_keys : List (String × String)
deriving DecidableEq

/-- A character allowed by `db._normalize_provider`'s class `[a-z0-9_]`. -/
def isProviderChar (c : Char) : Bool :=
  ('a' ≤ c && c ≤ 'z') || ('0' ≤ c && c ≤ '9') || c = '_'

/-- `re.sub` of every maximal run of characters outside `allowed` by a
single `repl`; `in_run` records whether the previous character was part of
such a run. -/
def subRuns (repl : Char) (allowed : Char → Bool) :
    List Char → Bool → List Char
  | [], _ => []
  | c :: cs, in_run =>
    if allowed c then c :: subRuns repl allowed cs false
    else if in_run then subRuns repl allowed cs true
    else repl :: subRuns repl allowed cs true

/-- `db._normalize_provider`: `str(provider or "").strip().lower()`, then
`re.sub(r"[^a-z0-9_]+", "_", ·).strip("_")`. -/
def db_normalize_provider (provider : String) : String :=
  pyStripUnderscore
    (String.mk (subRuns '_' isProviderChar (pyLower (pyStrip provider)).toList false))

/-- `db._normalize_subagent_status`: only `ready` / `needs_api_key` are
accepted (after strip + lower); anything else raises `ValueError`. -/
def db_normalize_subagent_status (value : String) : Except String String :=
  let normalized := pyLower (pyStrip value)
  if normalized = "ready" || normalized = "needs_api_key" then Except.ok normalized
  else Except.error "status must be one of: ready, needs_api_key"

/-- `SELECT ... WHERE LOWER(name) = LOWER($1) LIMIT 1`
(`get_subagent_by_name` and the existence check of `insert_subagent`). -/
def db_find_by_lower_name (db : DBState) (name : String) : Option Subagent :=
  db.subagents.find? (fun s => pyLower s.name == pyLower name)

/-- The provider-argument normalization shared by `insert_subagent` and
`update_subagent_auth`:
`normalized_provider = _normalize_provider(p) if p else None`, then
`ValueError` when a truthy provider normalizes to empty. -/
def normalize_provider_arg (required_provider : Option String) :
    Except String (Option String) :=
  match required_provider with
  | none => Except.ok none
  | some p =>
    if p = "" then Except.ok none
    else
      let np := db_normalize_provider p
      if np = "" then Except.error "required_provider cannot be empty"
      else Except.ok (some np)

/-- `db.insert_subagent`: validate, then insert-if-absent on the lower-cased
name; on a name collision the existing row is returned and nothing is
inserted. `new_id` stands for `str(uuid.uuid4())`. -/
def insert_subagent (db : DBState) (new_id : String)
    (name description system_prompt : String)
    (status : String) (required_provider : Option String) :
    Except String (Subagent × DBState) :=
  if name = "" || description = "" || system_prompt = "" then
    Except.error "name, description, and system_prompt are required"
  else
    let normalized_name := pyStrip name
    if normalized_name = "" then Except.error "name cannot be empty"
    else
      match db_normalize_subagent_status status with
      | Except.error e => Except.error e
      | Except.ok normalized_status =>
        match normalize_provider_arg required_provider with
        | Except.error e => Except.error e
        | Except.ok normalized_provider =>
          match db_find_by_lower_name db normalized_name with
          | some existing => Except.ok (existing, db)
          | none =>
            let row := Subagent.mk new_id normalized_name (pyStrip description)
              (pyStrip system_prompt) normalized_status normalized_provider
            Except.ok (row, DBState.mk (db.subagents ++ [row]) db.api_keys)

/-- `db.update_subagent_auth`: invalid uuid → `None` (no update); otherwise
validate status/provider and `UPDATE ... WHERE id = $1 RETURNING ...`
(`None` when no row has this id). -/
def update_subagent_auth (uuid_valid : String → Bool) (db : DBState)
    (subagent_id : String) (status : String)
    (required_provider : Option String) :
    Except String (Option Subagent × DBState) :=
  if !uuid_valid subagent_id then Except.ok (none, db)
  else
    match db_normalize_subagent_status status with
    | Except.error e => Except.error e
    | Except.ok normalized_status =>
      match normalize_provider_arg required_provider with
      | Except.error e => Except.error e
      | Except.ok normalized_provider =>
        match db.subagents.find? (fun s => s.id == subagent_id) with
        | none => Except.ok (none, db)
        | some s =>
          let updated := Subagent.mk s.id s.name s.description s.system_prompt
            normalized_status normalized_provider
          Except.ok (some updated,
            DBState.mk
              (db.subagents.map (fun t => if t.id == subagent_id then
                Subagent.mk t.id t.name t.description t.system_prompt
                  normalized_status normalized_provider
                else t))
              db.api_keys)

/-- `db.get_api_key`: normalize the provider (empty → `None`) and look the
key up in the `api_keys` table. -/
def get_api_key (db : DBState) (provider : String) : Option String :=
  let normalized_provider := db_normalize_provider provider
  if normalized_provider = "" then none
  else (db.api_keys.find? (fun kv => kv.1 == normalized_provider)).map
    (fun kv => kv.2)

/-- `pyLower` maps only the empty string to the empty string. -/
theorem pyLower_eq_empty_iff (s : String) : pyLower s = "" ↔ s = "" := by
  cases s with
  | mk data =>
    unfold pyLower
    constructor
    · intro h
      have hl : data.map Char.toLower = [] := congrArg String.data h
      have : data = [] := List.map_eq_nil_iff.mp hl
      rw [this]
    · intro h
      have : data = [] := congrArg String.data h
      rw [this]
      rfl

/-- **C9**: capability creation is idempotent on the lower-cased name.  For
valid arguments: when the registry already holds a capability whose name
case-insensitively equals the (stripped) name being inserted,
`insert_subagent` returns that existing record and leaves the registry
unchanged; and after a successful fresh insert, a second insert of the same
name in any letter case returns the just-stored record and leaves the
registry unchanged. -/
theorem claim_C9_insert_idempotent (db : DBState) (new_id : String)
    (name description system_prompt status : String)
    (required_provider : Option String)
    (hn : name ≠ "") (hd : description ≠ "") (hsp : system_prompt ≠ "")
    (hns : pyStrip name ≠ "")
    (ns : String) (hst : db_normalize_subagent_status status = Except.ok ns)
    (np : Option String)
    (hrp : normalize_provider_arg required_provider = Except.ok np) :
    (∀ existing, db_find_by_lower_name db (pyStrip name) = some existing →
      insert_subagent db new_id name description system_prompt status
        required_provider = Except.ok (existing, db)) ∧
    (∀ r dbNext, db_find_by_lower_name db (pyStrip name) = none →
      insert_subagent db new_id name description system_prompt status
        required_provider = Except.ok (r, dbNext) →
      ∀ new_id2 name2 description2 system_prompt2 status2 required_provider2
        ns2 np2,
        name2 ≠ "" → description2 ≠ "" → system_prompt2 ≠ "" →
        db_normalize_subagent_status status2 = Except.ok ns2 →
        normalize_provider_arg required_provider2 = Except.ok np2 →
        pyLower (pyStrip name2) = pyLower (pyStrip name) →
        insert_subagent dbNext new_id2 name2 description2 system_prompt2 status2
          required_provider2 = Except.ok (r, dbNext)) := by
  constructor
  · intro existing hex
    unfold insert_subagent
    rw [if_neg (by simp [hn, hd, hsp]), if_neg hns, hst, hrp, hex]
  · intro r dbNext hnone hins new_id2 name2 description2 system_prompt2
      status2 required_provider2 ns2 np2 hn2 hd2 hsp2 hst2 hrp2 hlow
    have hns2 : pyStrip name2 ≠ "" := by
      intro h
      rw [h] at hlow
      exact hns ((pyLower_eq_empty_iff _).mp hlow.symm)
    unfold insert_subagent at hins
    rw [if_neg (by simp [hn, hd, hsp]), if_neg hns, hst, hrp, hnone] at hins
    dsimp only at hins
    injection hins with hpair
    injection hpair with hrow hdbn
    unfold insert_subagent
    rw [if_neg (by simp [hn2, hd2, hsp2]), if_neg hns2, hst2, hrp2]
    have hfind : db_find_by_lower_name dbNext (pyStrip name2) = some r := by
      unfold db_find_by_lower_name
      rw [← hdbn]
      dsimp only
      rw [List.find?_append, hlow]
      unfold db_find_by_lower_name at hnone
      rw [hnone, Option.none_or, ← hrow]
      simp [List.find?]
    rw [hfind]

/-- A registry state holding one capability named `Foo`. -/
def c9Db : DBState :=
  DBState.mk [Subagent.mk "a" "Foo" "d1" "p1" "ready" none] []

/-- Witness for C9: inserting `"foo "` (different case, trailing blank) into
a registry already holding `Foo` returns the existing record and leaves the
registry unchanged. -/
theorem claim_C9_insert_idempotent_witness :
    insert_subagent c9Db "b" "foo " "d2" "p2" "ready" none =
      Except.ok (Subagent.mk "a" "Foo" "d1" "p1" "ready" none, c9Db) := by
  exact (claim_C9_insert_idempotent c9Db "b" "foo " "d2" "p2" "ready" none
    (by decide) (by decide) (by decide) (by decide) "ready" rfl
    none rfl).1 (Subagent.mk "a" "Foo" "d1" "p1" "ready" none)
    (by decide)

/-! ## Provider inference and the credential gate (`agent.py`) -/

/-- `needle` occurs as a contiguous substring of `hay`
(Python `needle in hay`). -/
def containsSub : List Char → List Char → Bool
  | [], needle => needle.isEmpty
  | c :: rest, needle => needle.isPrefixOf (c :: rest) || containsSub rest needle

/-- `agent.PROVIDER_HINTS`, in source (dict insertion) order. -/
def PROVIDER_HINTS : List (String × List String) :=
  [("google_search_console",
    ["google search console", "search console", "gsc", "google search",
     "search impressions"]),
   ("google_analytics", ["google analytics", "ga4"]),
   ("stripe", ["stripe"]),
   ("shopify", ["shopify"]),
   ("hubspot", ["hubspot"]),
   ("salesforce", ["salesforce"]),
   ("github", ["github"]),
   ("twilio",
    ["twilio", "sms", "text message", "send sms", "send text", "mms"])]

/-- `PokestratorOrchestrator._infer_required_provider`: the first provider
(in hint-table order) one of whose hint phrases occurs in the lower-cased
task text. -/
def infer_required_provider (task_description : String) : Option String :=
  let task := pyLower task_description
  (PROVIDER_HINTS.find?
    (fun ph => ph.2.any (fun hint => containsSub task.toList hint.toList))).map
    (fun ph => ph.1)

/-- `PokestratorOrchestrator._build_missing_managed_api_key_message`. -/
def build_missing_managed_api_key_message (provider subagent_name : String) :
    String :=
  "Tell the user that Pokestrator couldn\x27t find an API key for " ++ provider
    ++ ", please upload it to 1Password and we\x27ll be able to handle that."

/-- `PokestratorOrchestrator._build_managed_api_key_found_message`. -/
def build_managed_api_key_found_message (provider : String) : String :=
  "Tell the user explicitly that Pokestrator found their " ++ provider
    ++ " API key from 1Password and is pulling their data now."

/-- Observable side effects of one execution attempt, in order: the
`update_subagent_auth` registry call, the in-progress notification, and the
hand-off of the task to the execution backend (`_run_subagent`). -/
inductive Effect where
  | setAuthCall (subagent_id status : String) (required_provider : Option String)
  | progressSend (request_id branch status message : String)
  | backendRun (subagent_name : String)
deriving DecidableEq

/-- `PokestratorOrchestrator._set_subagent_auth_status`: skip when the
capability has no id; otherwise call `update_subagent_auth` and copy the
updated fields back onto the in-memory object; exceptions are logged and
swallowed (the state is then left unchanged). -/
def set_subagent_auth_status (uuid_valid : String → Bool) (db : DBState)
    (subagent : Subagent) (status : String) :
    Subagent × DBState × List Effect :=
  if subagent.id = "" then (subagent, db, [])
  else
    match update_subagent_auth uuid_valid db subagent.id status
        subagent.required_provider with
    | Except.error _ =>
      (subagent, db, [Effect.setAuthCall subagent.id status subagent.required_provider])
    | Except.ok (none, dbAfter) =>
      (subagent, dbAfter,
        [Effect.setAuthCall subagent.id status subagent.required_provider])
    | Except.ok (some updated, dbAfter) =>
      (Subagent.mk subagent.id subagent.name subagent.description
          subagent.system_prompt updated.status updated.required_provider,
        dbAfter,
        [Effect.setAuthCall subagent.id status subagent.required_provider])

/-- The provider-dependent half of `_run_subagent_with_auth_check`, entered
when a (possibly inferred) required provider is present: look up the stored
credential; absent → persist `needs_api_key` and return the user-facing
missing-credential result with status `missing_managed_api_key`; present →
persist `ready`, send the in-progress notification and run the backend.
`run_result` abstracts the value returned by `_run_subagent`. -/
def run_with_provider_auth (uuid_valid : String → Bool) (db : DBState)
    (subagent : Subagent) (provider : String)
    (task_description request_id branch run_result : String) :
    (String × String × List (String × String)) × DBState × List Effect :=
  match get_api_key db provider with
  | none =>
    let after := set_subagent_auth_status uuid_valid db subagent "needs_api_key"
    ((build_missing_managed_api_key_message provider subagent.name,
      "missing_managed_api_key",
      [("required_provider", provider), ("subagent_name", subagent.name),
       ("credential_source", "1password")]),
     after.2.1, after.2.2)
  | some _ =>
    let after := set_subagent_auth_status uuid_valid db subagent "ready"
    ((run_result, "completed",
      [("required_provider", provider), ("credential_source", "1password")]),
     after.2.1,
     after.2.2 ++
       [Effect.progressSend request_id branch "in_progress"
         (build_managed_api_key_found_message provider),
        Effect.backendRun after.1.name])

/-- `PokestratorOrchestrator._run_subagent_with_auth_check`.  When the
capability carries no (truthy) provider tag, one is inferred from the task
text, name and description; with a provider present the credential gate of
`run_with_provider_auth` runs, otherwise the backend is executed directly.
The triple returned is `(result, execution_status, execution_metadata)`. -/
def run_subagent_with_auth_check (uuid_valid : String → Bool) (db : DBState)
    (subagent : Subagent)
    (task_description request_id branch run_result : String) :
    (String × String × List (String × String)) × DBState × List Effect :=
  match
    (match subagent.required_provider with
     | some p => if p = "" then none else some p
     | none => none) with
  | some p =>
    run_with_provider_auth uuid_valid db subagent p task_description
      request_id branch run_result
  | none =>
    match infer_required_provider
        (task_description ++ "\n" ++ subagent.name ++ "\n"
          ++ subagent.description) with
    | some ip =>
      run_with_provider_auth uuid_valid db
        (Subagent.mk subagent.id subagent.name subagent.description
          subagent.system_prompt subagent.status (some ip))
        ip task_description request_id branch run_result
    | none =>
      ((run_result, "completed", []), db, [Effect.backendRun subagent.name])

/-- **C6**: for every execution attempt on a registered capability whose
required provider has no stored credential, the credential gate persists the
capability's status as `needs_api_key` (the spec's `needs_credential`), the
attempt terminates with the user-facing missing-credential message (a
result value, not an error), the returned execution status is
`missing_managed_api_key` (the spec's `missing_credential` status code)
with the provider in the metadata, the only side effect is the single
status-update call — in particular the execution backend is never invoked
for this attempt. -/
theorem claim_C6_credential_gate (uuid_valid : String → Bool) (db : DBState)
    (subagent : Subagent)
    (task_description request_id branch run_result : String) (p : String)
    (hp : subagent.required_provider = some p)
    (hnp : db_normalize_provider p ≠ "")
    (hkey : get_api_key db p = none)
    (hid : subagent.id ≠ "") (hvalid : uuid_valid subagent.id = true)
    (hrow : ∃ s ∈ db.subagents, s.id = subagent.id) :
    (run_subagent_with_auth_check uuid_valid db subagent task_description
        request_id branch run_result).1 =
      (build_missing_managed_api_key_message p subagent.name,
       "missing_managed_api_key",
       [("required_provider", p), ("subagent_name", subagent.name),
        ("credential_source", "1password")]) ∧
    (run_subagent_with_auth_check uuid_valid db subagent task_description
        request_id branch run_result).2.2 =
      [Effect.setAuthCall subagent.id "needs_api_key"
        subagent.required_provider] ∧
    (∀ n, Effect.backendRun n ∉
      (run_subagent_with_auth_check uuid_valid db subagent task_description
        request_id branch run_result).2.2) ∧
    (∀ s ∈ (run_subagent_with_auth_check uuid_valid db subagent
        task_description request_id branch run_result).2.1.subagents,
      s.id = subagent.id → s.status = "needs_api_key") := by
  have hpne : p ≠ "" := by
    intro h
    exact hnp (by rw [h]; rfl)
  have hupd : ∀ q,
      update_subagent_auth uuid_valid db subagent.id "needs_api_key"
        (some p) = Except.ok q →
      ∀ s ∈ q.2.subagents, s.id = subagent.id → s.status = "needs_api_key" := by
    intro q hq s hs hsid
    unfold update_subagent_auth at hq
    rw [hvalid] at hq
    simp only [Bool.not_true, Bool.false_eq_true, if_false] at hq
    rw [show db_normalize_subagent_status "needs_api_key" =
      Except.ok "needs_api_key" from rfl] at hq
    unfold normalize_provider_arg at hq
    dsimp only at hq
    rw [if_neg hpne, if_neg hnp] at hq
    dsimp only at hq
    rcases hrow with ⟨t, htm, htid⟩
    have hfind : (db.subagents.find? (fun s => s.id == subagent.id)).isSome := by
      rw [List.find?_isSome]
      exact ⟨t, htm, by simpa using htid⟩
    rcases Option.isSome_iff_exists.mp hfind with ⟨t0, ht0⟩
    rw [ht0] at hq
    dsimp only at hq
    injection hq with hpr
    rw [← hpr] at hs
    dsimp only at hs
    rcases List.mem_map.mp hs with ⟨u, _, rfl⟩
    by_cases hu : u.id == subagent.id
    · rw [if_pos hu]
    · rw [if_neg hu] at hsid ⊢
      exact absurd (by simpa using hsid) (by simpa using hu)
  have hgate : run_subagent_with_auth_check uuid_valid db subagent
      task_description request_id branch run_result =
      run_with_provider_auth uuid_valid db subagent p task_description
        request_id branch run_result := by
    unfold run_subagent_with_auth_check
    rw [hp]
    dsimp only
    rw [if_neg hpne]
  rw [hgate]
  unfold run_with_provider_auth
  rw [hkey]
  dsimp only
  unfold set_subagent_auth_status
  rw [if_neg hid, hp]
  rcases hu : update_subagent_auth uuid_valid db subagent.id "needs_api_key"
      (some p) with e | q
  · exfalso
    unfold update_subagent_auth at hu
    rw [hvalid] at hu
    simp only [Bool.not_true, Bool.false_eq_true, if_false] at hu
    rw [show db_normalize_subagent_status "needs_api_key" =
      Except.ok "needs_api_key" from rfl] at hu
    unfold normalize_provider_arg at hu
    dsimp only at hu
    rw [if_neg hpne, if_neg hnp] at hu
    dsimp only at hu
    rcases h2 : db.subagents.find? (fun s => s.id == subagent.id) with _ | t0
    · rw [h2] at hu
      exact Except.noConfusion hu
    · rw [h2] at hu
      exact Except.noConfusion hu
  · have hq := hupd q hu
    rcases q with ⟨upd | upd, dbAfter⟩
    · exact ⟨rfl, rfl, by intro n h; simpa using h, fun s hs => hq s hs⟩
    · exact ⟨rfl, rfl, by intro n h; simpa using h, fun s hs => hq s hs⟩

/-- Concrete registry and capability for the C6 witness: a `stripe`-tagged
capability with no stored `stripe` key. -/
def c6Subagent : Subagent :=
  Subagent.mk "a" "stripe_helper" "helps with stripe" "prompt" "ready"
    (some "stripe")

/-- Witness registry for C6. -/
def c6Db : DBState := DBState.mk [c6Subagent] []

/-- Witness for C6 at concrete inputs: status `missing_managed_api_key`,
exactly the one persist effect, and the stored capability ends up
`needs_api_key`. -/
theorem claim_C6_credential_gate_witness :
    (run_subagent_with_auth_check (fun _ => true) c6Db c6Subagent
        "charge a customer" "req1" "match" "unused").1.2.1 =
      "missing_managed_api_key" ∧
    (run_subagent_with_auth_check (fun _ => true) c6Db c6Subagent
        "charge a customer" "req1" "match" "unused").2.2 =
      [Effect.setAuthCall "a" "needs_api_key" (some "stripe")] := by
  have h := claim_C6_credential_gate (fun _ => true) c6Db c6Subagent
    "charge a customer" "req1" "match" "unused" "stripe" rfl (by decide)
    (by decide) (by decide) rfl ⟨c6Subagent, by decide, rfl⟩
  exact ⟨by rw [h.1], by rw [h.2.1]; rfl⟩

/-! ## Execution backend result collection
(`agent.py`: `_run_claude_agent`, `_run_subagent`)

A backend event is a foreign SDK object probed by the duck-typed
`_extract_text` / `_extract_result`; it is modelled by its observable
content: the text-like content the probe finds (already joined and
stripped by `_extract_text`) and the raw `result` attribute/key. -/

/-- A backend stream event, by its observable content. -/
structure AgentEvent where
  text_field : Option String
  result_field : Option String
deriving DecidableEq

/-- `_extract_text` on an event: the found text, stripped (`""` when the
event has none). -/
def extract_text (e : AgentEvent) : String :=
  match e.text_field with
  | none => ""
  | some t => pyStrip t

/-- `_extract_result` on an event: the `result` value only when it is a
string with non-blank content (`value.strip()` truthy), returned
unstripped. -/
def extract_result (e : AgentEvent) : Option String :=
  match e.result_field with
  | none => none
  | some v => if pyStrip v = "" then none else some v

/-- `PokestratorOrchestrator._simulate_subagent_response`. -/
def simulate_subagent_response
    (subagent_name task_description reason : String) : String :=
  "[Fallback " ++ subagent_name ++ "] Unable to complete task. Reason: "
    ++ reason ++ ". Task: " ++ task_description

/-- The event loop of `consume()` inside `_run_claude_agent`: walk the
stream, collecting non-empty text chunks in arrival order and remembering
the last non-empty declared result. -/
def consumeLoop : List AgentEvent → Option String → List String →
    Option String × List String
  | [], final_result, chunks => (final_result, chunks)
  | e :: rest, final_result, chunks =>
    let candidate := extract_text e
    let chunks2 := if candidate = "" then chunks else chunks ++ [candidate]
    let final2 :=
      match extract_result e with
      | some r => some r
      | none => final_result
    consumeLoop rest final2 chunks2

/-- `consume()`: prefer the declared result (stripped), else the newline
join of the text chunks (stripped), else the deterministic no-output
fallback. -/
def consume (subagent_name task_description : String)
    (events : List AgentEvent) : String :=
  match consumeLoop events none [] with
  | (some r, _) => pyStrip r
  | (none, chunks) =>
    if chunks.isEmpty then
      simulate_subagent_response subagent_name task_description
        "claude run completed without output"
    else pyStrip (String.intercalate "\n" chunks)

/-- `PokestratorOrchestrator._run_claude_agent`: a failed query
initialization or a timeout of the consuming loop yields the deterministic
fallback instead of raising; otherwise the stream is consumed.
`query_init` models `claude_sdk.query` (exception text on failure) and
`timed_out` the `asyncio.wait_for` timeout. -/
def run_claude_agent (subagent : Subagent)
    (task_description request_id : String) (timeout_seconds : Nat)
    (query_init : Except String Unit) (timed_out : Bool)
    (events : List AgentEvent) : String :=
  match query_init with
  | Except.error exc =>
    simulate_subagent_response subagent.name task_description
      ("claude query initialization failed: " ++ exc)
  | Except.ok _ =>
    if timed_out then
      simulate_subagent_response subagent.name task_description
        ("claude run timed out after " ++ toString timeout_seconds ++ "s")
    else consume subagent.name task_description events

/-- `PokestratorOrchestrator._run_subagent`: backend unavailability (failed
SDK import) short-circuits to the fallback; otherwise the result of
`_run_claude_agent` is returned (abstracted as `claude_result`). -/
def run_subagent (sdk_available : Bool) (subagent : Subagent)
    (task_description request_id : String) (claude_result : String) : String :=
  if !sdk_available then
    simulate_subagent_response subagent.name task_description
      ("claude_agent_sdk is not available in this runtime "
        ++ "(import failed or package missing)")
  else claude_result

theorem consumeLoop_spec (events : List AgentEvent) :
    ∀ (fr : Option String) (chunks : List String),
      consumeLoop events fr chunks =
        (match (events.filterMap extract_result).getLast? with
         | some r => some r
         | none => fr,
         chunks ++ (events.map extract_text).filter (fun t => !(t == ""))) := by
  induction events with
  | nil =>
    intro fr chunks
    simp [consumeLoop]
  | cons e rest ih =>
    intro fr chunks
    unfold consumeLoop
    rw [ih]
    rw [List.filterMap_cons, List.map_cons, List.filter_cons]
    cases hr : extract_result e <;>
      by_cases htv : extract_text e = "" <;>
        simp only [htv, hr, Prod.mk.injEq, List.getLast?_cons] <;>
          cases h2 : (rest.filterMap extract_result).getLast? <;>
            simp [h2, htv, List.append_assoc]

/-- **C7**: the reported result of a consumed event stream is (a) the last
non-empty declared result (stripped) when any event carried one, else
(b) the non-empty text chunks joined by newlines in arrival order
(stripped), else (c) the deterministic no-output fallback string; and on
query-initialization failure, timeout, or SDK unavailability the
corresponding deterministic fallback string is returned (a value, not an
exception), so a result is always available to report. -/
theorem claim_C7_result_extraction (subagent : Subagent)
    (task_description request_id : String) (timeout_seconds : Nat)
    (query_init : Except String Unit) (timed_out : Bool)
    (events : List AgentEvent) :
    (consume subagent.name task_description events =
      match (events.filterMap extract_result).getLast? with
      | some r => pyStrip r
      | none =>
        if ((events.map extract_text).filter (fun t => !(t == ""))).isEmpty then
          simulate_subagent_response subagent.name task_description
            "claude run completed without output"
        else
          pyStrip (String.intercalate "\n"
            ((events.map extract_text).filter (fun t => !(t == ""))))) ∧
    (∀ exc, query_init = Except.error exc →
      run_claude_agent subagent task_description request_id timeout_seconds
        query_init timed_out events =
        simulate_subagent_response subagent.name task_description
          ("claude query initialization failed: " ++ exc)) ∧
    (timed_out = true →
      run_claude_agent subagent task_description request_id timeout_seconds
        (Except.ok ()) timed_out events =
        simulate_subagent_response subagent.name task_description
          ("claude run timed out after " ++ toString timeout_seconds ++ "s")) ∧
    (query_init = Except.ok () → timed_out = false →
      run_claude_agent subagent task_description request_id timeout_seconds
        query_init timed_out events =
        consume subagent.name task_description events) ∧
    (run_subagent false subagent task_description request_id
        (consume subagent.name task_description events) =
      simulate_subagent_response subagent.name task_description
        ("claude_agent_sdk is not available in this runtime "
          ++ "(import failed or package missing)")) := by
  refine ⟨?_, ?_, ?_, ?_, rfl⟩
  · unfold consume
    rw [consumeLoop_spec]
    cases h : (events.filterMap extract_result).getLast?
    · dsimp only
      rw [List.nil_append]
    · rfl
  · intro exc h
    rw [h]
    rfl
  · intro h
    unfold run_claude_agent
    rw [if_pos h]
  · intro hq ht
    rw [hq]
    unfold run_claude_agent
    rw [if_neg (by rw [ht]; exact Bool.false_ne_true)]

/-- Witness for C7: the spec's own example — a stream with text chunks
`["a", "b"]` and no declared result reports `"a\nb"`. -/
theorem claim_C7_result_extraction_witness :
    consume "worker" "task"
      [AgentEvent.mk (some "a") none, AgentEvent.mk (some "b") none] =
      "a\n" ++ "b" := by
  have h := (claim_C7_result_extraction (Subagent.mk "i" "worker" "d" "p"
    "ready" none) "task" "req" 180 (Except.ok ()) false
    [AgentEvent.mk (some "a") none, AgentEvent.mk (some "b") none]).1
  exact h.trans (by decide)

/-! ## Synthesis, normalization helpers and the orchestrate lifecycle
(`agent.py`) -/

/-- `agent._normalize_provider`: falsy input → `None`; otherwise slugify to
`[a-z0-9_]` and return `None` when the slug collapses to empty. -/
def agent_normalize_provider (value : Option String) : Option String :=
  match value with
  | none => none
  | some v =>
    if v = "" then none
    else
      let normalized := db_normalize_provider v
      if normalized = "" then none else some normalized

/-- `PokestratorOrchestrator._normalize_text_field`: `str(value or "")`,
strip, fall back when empty, collapse whitespace runs to single blanks,
cap the length, strip again. -/
def normalize_text_field (value : Option String) (fallback : String)
    (max_len : Nat) : String :=
  let text := pyStrip ((fun v => match v with | none => "" | some s => s) value)
  if text = "" then fallback
  else
    pyStrip (pyTake
      (String.mk (subRuns ' ' (fun c => !c.isWhitespace) text.toList false))
      max_len)

/-- `PokestratorOrchestrator._normalize_subagent_name`: lower-cased slug of
the oracle's name, falling back to the hint and then to
`auto_general_task_automation`, forced to start with `auto_`, capped at 64
characters and stripped of underscores. -/
def normalize_subagent_name (value : Option String) (fallback : String) :
    String :=
  let raw := pyLower (pyStrip ((fun v => match v with | none => "" | some s => s) value))
  let slug0 := pyStripUnderscore (String.mk (subRuns '_' isTokChar raw.toList false))
  let slug1 :=
    if slug0 = "" then
      pyStripUnderscore
        (String.mk (subRuns '_' isTokChar (pyLower fallback).toList false))
    else slug0
  let slug2 := if slug1 = "" then "auto_general_task_automation" else slug1
  let slug3 :=
    if "auto_".toList.isPrefixOf slug2.toList then slug2 else "auto_" ++ slug2
  pyStripUnderscore (pyTake slug3 64)

/-- `PokestratorOrchestrator._build_new_subagent_name`: slug of the task
text, defaulting to `general_task_automation`, truncated to 56 characters,
prefixed `auto_`. -/
def build_new_subagent_name (task_description : String) : String :=
  let slug0 := pyStripUnderscore
    (String.mk (subRuns '_' isTokChar (pyLower task_description).toList false))
  let slug1 := if slug0 = "" then "general_task_automation" else slug0
  let slug2 :=
    if 56 < slug1.toList.length then pyStripUnderscore (pyTake slug1 56)
    else slug1
  "auto_" ++ slug2

/-- `PokestratorOrchestrator._build_generated_subagent_spec`: normalize the
oracle's three fields; an empty description or system prompt after
normalization raises (`RuntimeError`), and nothing is returned.
`analysis` models `_analyze_task_with_orchestrator` (`Except.error` covers
an SDK-unavailable, failed, or non-JSON oracle call, all of which raise). -/
def build_generated_subagent_spec
    (analysis : Except String (String × String × String))
    (name_hint task_description : String) :
    Except String (String × String × String) :=
  match analysis with
  | Except.error e => Except.error e
  | Except.ok (aname, adescription, aprompt) =>
    let name := normalize_subagent_name (some aname)
      (if name_hint = "" then "auto_general_task_automation" else name_hint)
    let description := normalize_text_field (some adescription) "" 240
    let system_prompt := normalize_text_field (some aprompt) "" 2400
    if description = "" || system_prompt = "" then
      Except.error "orchestrator capability analysis returned incomplete spec fields"
    else Except.ok (name, description, system_prompt)

/-- `PokestratorOrchestrator._store_generated_subagent`: build the spec
(a synthesis failure propagates and touches nothing), attach the provider
tag and its capability instructions (`provider_instructions` abstracts the
environment-dependent text of
`_build_provider_capability_instructions`), choose `needs_api_key`/`ready`
by credential presence, then reuse-by-name (refreshing the stored auth
fields) or insert; registry errors at that stage fall back to the
in-memory record. -/
def store_generated_subagent (uuid_valid : String → Bool) (db : DBState)
    (analysis : Except String (String × String × String))
    (name_hint task_description : String)
    (required_provider : Option String)
    (provider_instructions : String → String) (new_id : String) :
    Except String Subagent × DBState :=
  match build_generated_subagent_spec analysis name_hint task_description with
  | Except.error e => (Except.error e, db)
  | Except.ok (name, description, system_prompt0) =>
    let normalized_provider := agent_normalize_provider required_provider
    let system_prompt :=
      match normalized_provider with
      | some p => system_prompt0 ++ "\n\n" ++ provider_instructions p
      | none => system_prompt0
    let provider_key :=
      match normalized_provider with
      | some p => get_api_key db p
      | none => none
    let subagent_status :=
      if normalized_provider.isSome && provider_key.isNone then "needs_api_key"
      else "ready"
    let generated :=
      Subagent.mk "" name description system_prompt subagent_status
        normalized_provider
    match db_find_by_lower_name db name with
    | some existing =>
      match update_subagent_auth uuid_valid db existing.id subagent_status
          (match normalized_provider with
           | some p => some p
           | none => existing.required_provider) with
      | Except.error _ => (Except.ok generated, db)
      | Except.ok (some updated, dbAfter) => (Except.ok updated, dbAfter)
      | Except.ok (none, dbAfter) => (Except.ok existing, dbAfter)
    | none =>
      match insert_subagent db new_id name description system_prompt
          subagent_status normalized_provider with
      | Except.error _ => (Except.ok generated, db)
      | Except.ok (stored, dbAfter) => (Except.ok stored, dbAfter)

/-- `PokestratorOrchestrator._execute_decision`: the match branch runs the
credential-gated execution directly; the build-new branch first synthesizes
and persists the capability (a synthesis failure propagates as a
request-level error) and then runs the same gate.  `run_result` abstracts
`_run_subagent`'s returned value for a given capability. -/
def execute_decision (uuid_valid : String → Bool)
    (task_description request_id : String)
    (analysis : Except String (String × String × String))
    (provider_instructions : String → String) (new_id : String)
    (run_result : Subagent → String)
    (decision : RouteDecision) (db : DBState) :
    Except String (String × String × List (String × String)) ×
      DBState × List Effect :=
  match decision with
  | RouteDecision.matched subagent =>
    let r := run_subagent_with_auth_check uuid_valid db subagent
      task_description request_id "match" (run_result subagent)
    (Except.ok r.1, r.2.1, r.2.2)
  | RouteDecision.build_new new_subagent_name =>
    let required_provider := infer_required_provider task_description
    match store_generated_subagent uuid_valid db analysis new_subagent_name
        task_description required_provider provider_instructions new_id with
    | (Except.error e, dbAfter) => (Except.error e, dbAfter, [])
    | (Except.ok subagent, dbAfter) =>
      let r := run_subagent_with_auth_check uuid_valid dbAfter subagent
        task_description request_id "build_new" (run_result subagent)
      (Except.ok r.1, r.2.1, r.2.2)

/-- `PokestratorOrchestrator._parse_metadata`: falsy input, invalid JSON,
or a non-object JSON value is silently discarded; never raises.
`json_loads` abstracts the standard-library JSON parser. -/
def parse_metadata (json_loads : String → Except Unit JsonVal)
    (metadata : Option String) : Option JsonObj :=
  match metadata with
  | none => none
  | some text =>
    if text = "" then none
    else
      match json_loads text with
      | Except.error _ => none
      | Except.ok (JsonVal.obj fields) => some fields
      | Except.ok _ => none

/-- `PokestratorOrchestrator._format_poke_message`. -/
def format_poke_message (result request_id : String) : String :=
  "[pokestrator:" ++ request_id ++ "] " ++ result

/-- The JSON payload of a terminal callback, by field.  `extra` carries the
keys merged in from `execution_metadata`; absent optional fields are
`none`. -/
structure Payload where
  request_id : String
  status : String
  task_description : String
  branch : Option String
  result : Option String
  error : Option String
  metadata : Option JsonObj
  extra : List (String × String)

/-- The failure payload built in `orchestrate`'s exception handler:
`{request_id, status: "failed", task_description, error}`. -/
def failPayload (request_id task_description excText : String) : Payload :=
  Payload.mk request_id "failed" task_description none none (some excText)
    none []

/-- `"match"` / `"build_new"`, the `branch` key of `decide_route`'s
result dict. -/
def branchName : RouteDecision → String
  | RouteDecision.matched _ => "match"
  | RouteDecision.build_new _ => "build_new"

/-- `PokestratorOrchestrator._decide_route`: a failing registry read
(`get_all_subagents` raising) is caught and replaced by the empty
capability list before the pure routing decision runs. -/
def decide_route_full (cfg : RouterConfig)
    (arbiter : String → List RankedCandidate → Option Subagent)
    (registry_result : Except Unit (List Subagent))
    (task_description : String)
    (build_name : String → String) : RouteDecision :=
  match registry_result with
  | Except.error _ => decide_route cfg arbiter task_description [] build_name
  | Except.ok subagents =>
    decide_route cfg arbiter task_description subagents build_name

/-- `PokestratorOrchestrator.orchestrate`: parse the metadata, decide the
route (`decide_outcome`; `Except.error` models the decision logic raising,
wrapped into `RuntimeError("Could not determine route: ...")`), execute,
then send the terminal callback.  The returned trace lists every terminal
callback attempt in order, paired with whether its delivery succeeded
(`send_fail1`/`send_fail2` carry the exception text of a failing
`send_poke_message` for the first/second attempt).  A delivery failure of
the success callback falls into the outer exception handler, which builds
the failure payload and attempts a second send, itself log-and-continue. -/
def orchestrate (request_id task_description : String)
    (metadata : Option String) (json_loads : String → Except Unit JsonVal)
    (decide_outcome : Except String RouteDecision)
    (execute : RouteDecision → DBState →
      Except String (String × String × List (String × String)) ×
        DBState × List Effect)
    (db : DBState) (send_fail1 send_fail2 : Option String) :
    String × List (Payload × Bool) × DBState × List Effect :=
  let metadata_dict := parse_metadata json_loads metadata
  match decide_outcome with
  | Except.error exc =>
    ("Error while processing request " ++ request_id
        ++ ": Could not determine route: " ++ exc,
     [(failPayload request_id task_description
        ("Could not determine route: " ++ exc), send_fail2.isNone)],
     db, [])
  | Except.ok decision =>
    match execute decision db with
    | (Except.error exc, dbAfter, effs) =>
      ("Error while processing request " ++ request_id ++ ": " ++ exc,
       [(failPayload request_id task_description exc, send_fail2.isNone)],
       dbAfter, effs)
    | (Except.ok (result, execution_status, execution_metadata), dbAfter, effs) =>
      let payload := Payload.mk request_id execution_status task_description
        (some (branchName decision)) (some result) none
        (match metadata_dict with
         | some fields => if fields.isEmpty then none else some fields
         | none => none)
        execution_metadata
      match send_fail1 with
      | none => (result, [(payload, true)], dbAfter, effs)
      | some sendExc =>
        ("Error while processing request " ++ request_id ++ ": " ++ sendExc,
         [(payload, false),
          (failPayload request_id task_description sendExc, send_fail2.isNone)],
         dbAfter, effs)

/-! ## Claims C4, C5, C8 and C10 -/

theorem run_with_provider_auth_status (uuid_valid : String → Bool)
    (db : DBState) (subagent : Subagent) (provider : String)
    (task_description request_id branch run_result : String) :
    (run_with_provider_auth uuid_valid db subagent provider task_description
        request_id branch run_result).1.2.1 = "completed" ∨
    (run_with_provider_auth uuid_valid db subagent provider task_description
        request_id branch run_result).1.2.1 = "missing_managed_api_key" := by
  unfold run_with_provider_auth
  cases hk : get_api_key db provider
  · right; rfl
  · left; rfl

theorem auth_check_status (uuid_valid : String → Bool) (db : DBState)
    (subagent : Subagent)
    (task_description request_id branch run_result : String) :
    (run_subagent_with_auth_check uuid_valid db subagent task_description
        request_id branch run_result).1.2.1 = "completed" ∨
    (run_subagent_with_auth_check uuid_valid db subagent task_description
        request_id branch run_result).1.2.1 = "missing_managed_api_key" := by
  unfold run_subagent_with_auth_check
  rcases hm : (match subagent.required_provider with
    | some p => if p = "" then none else some p
    | none => none) with _ | p
  · rw [hm]
    dsimp only
    rcases hi : infer_required_provider (task_description ++ "\n"
        ++ subagent.name ++ "\n" ++ subagent.description) with _ | ip
    · left; rfl
    · exact run_with_provider_auth_status uuid_valid db _ ip task_description
        request_id branch run_result
  · rw [hm]
    exact run_with_provider_auth_status uuid_valid db subagent p
      task_description request_id branch run_result

/-- **C4, counterexample**: the claim states that a failure of the callback
delivery is only logged, never causes a second callback and never changes
the computed result.  On this concrete run the execution succeeds with
result `"done"`, the delivery of the success callback fails
(`send_poke_message` raising `POKE_API_KEY is not set`), and the code then
attempts a **second** terminal callback with status `failed` and returns the
error text instead of `"done"` (with delivery intact, the same run makes a
single attempt and returns `"done"`). -/
theorem claim_C4_counterexample :
    ((orchestrate "r1" "task" none (fun _ => Except.error ())
        (Except.ok (RouteDecision.build_new "auto_task"))
        (fun _ db => (Except.ok ("done", "completed", []), db, []))
        (DBState.mk [] []) (some "POKE_API_KEY is not set") none).2.1.length
      = 2) ∧
    (orchestrate "r1" "task" none (fun _ => Except.error ())
        (Except.ok (RouteDecision.build_new "auto_task"))
        (fun _ db => (Except.ok ("done", "completed", []), db, []))
        (DBState.mk [] []) (some "POKE_API_KEY is not set") none).1 =
      "Error while processing request r1: POKE_API_KEY is not set" ∧
    (orchestrate "r1" "task" none (fun _ => Except.error ())
        (Except.ok (RouteDecision.build_new "auto_task"))
        (fun _ db => (Except.ok ("done", "completed", []), db, []))
        (DBState.mk [] []) none none).1 = "done" := by
  exact ⟨rfl, rfl, rfl⟩

/-- **C4 (amended)**: for every accepted request the terminal reporting
behaves as follows.  A decision failure or an execution failure produces
exactly one terminal callback attempt, with status `failed`, carrying the
request id, the task description and the error text.  A successful
execution with intact delivery produces exactly one terminal callback
attempt carrying the request id, the execution status, the task
description, the branch and the result; with the real `_execute_decision`
that status is `completed` or `missing_managed_api_key` (the spec's
`missing_credential`), so every terminal status is among
`{completed, missing_managed_api_key, failed}`.  However, when the delivery
of the success callback fails, the request degrades to the failure path: a
second terminal callback with status `failed` is attempted (its own
delivery failure only logged, never retried) and the returned value becomes
the error text instead of the computed result. -/
theorem claim_C4_reporting (request_id task_description : String)
    (metadata : Option String) (json_loads : String → Except Unit JsonVal)
    (decide_outcome : Except String RouteDecision)
    (execute : RouteDecision → DBState →
      Except String (String × String × List (String × String)) ×
        DBState × List Effect)
    (db : DBState) (send_fail1 send_fail2 : Option String) :
    (∀ e, decide_outcome = Except.error e →
      orchestrate request_id task_description metadata json_loads
          decide_outcome execute db send_fail1 send_fail2 =
        ("Error while processing request " ++ request_id
            ++ ": Could not determine route: " ++ e,
         [(failPayload request_id task_description
            ("Could not determine route: " ++ e), send_fail2.isNone)],
         db, [])) ∧
    (∀ d exc dbA effs, decide_outcome = Except.ok d →
      execute d db = (Except.error exc, dbA, effs) →
      orchestrate request_id task_description metadata json_loads
          decide_outcome execute db send_fail1 send_fail2 =
        ("Error while processing request " ++ request_id ++ ": " ++ exc,
         [(failPayload request_id task_description exc, send_fail2.isNone)],
         dbA, effs)) ∧
    (∀ d result st md dbA effs, decide_outcome = Except.ok d →
      execute d db = (Except.ok (result, st, md), dbA, effs) →
      send_fail1 = none →
      orchestrate request_id task_description metadata json_loads
          decide_outcome execute db send_fail1 send_fail2 =
        (result,
         [(Payload.mk request_id st task_description (some (branchName d))
            (some result) none
            (match parse_metadata json_loads metadata with
             | some fields => if fields.isEmpty then none else some fields
             | none => none) md, true)],
         dbA, effs)) ∧
    (∀ d result st md dbA effs sendExc, decide_outcome = Except.ok d →
      execute d db = (Except.ok (result, st, md), dbA, effs) →
      send_fail1 = some sendExc →
      orchestrate request_id task_description metadata json_loads
          decide_outcome execute db send_fail1 send_fail2 =
        ("Error while processing request " ++ request_id ++ ": " ++ sendExc,
         [(Payload.mk request_id st task_description (some (branchName d))
            (some result) none
            (match parse_metadata json_loads metadata with
             | some fields => if fields.isEmpty then none else some fields
             | none => none) md, false),
          (failPayload request_id task_description sendExc,
            send_fail2.isNone)],
         dbA, effs)) ∧
    (∀ uuid_valid analysis provider_instructions new_id run_result d db0
        res st md db1 effs,
      execute_decision uuid_valid task_description request_id analysis
          provider_instructions new_id run_result d db0 =
        (Except.ok (res, st, md), db1, effs) →
      st = "completed" ∨ st = "missing_managed_api_key") := by
  refine ⟨?_, ?_, ?_, ?_, ?_⟩
  · intro e he
    rw [he]
    rfl
  · intro d exc dbA effs hd hexec
    rw [hd]
    unfold orchestrate
    dsimp only
    rw [hexec]
  · intro d result st md dbA effs hd hexec hsf
    rw [hd, hsf]
    unfold orchestrate
    dsimp only
    rw [hexec]
  · intro d result st md dbA effs sendExc hd hexec hsf
    rw [hd, hsf]
    unfold orchestrate
    dsimp only
    rw [hexec]
  · intro uuid_valid analysis provider_instructions new_id run_result d db0
      res st md db1 effs hexec
    cases d with
    | matched subagent =>
      unfold execute_decision at hexec
      have h1 := congrArg Prod.fst hexec
      dsimp only at h1
      injection h1 with h2
      have hst : st = (run_subagent_with_auth_check uuid_valid db0 subagent
          task_description request_id "match"
          (run_result subagent)).1.2.1 := by
        rw [h2]
      rw [hst]
      exact auth_check_status uuid_valid db0 subagent task_description
        request_id "match" (run_result subagent)
    | build_new new_subagent_name =>
      unfold execute_decision at hexec
      dsimp only at hexec
      rcases hs : store_generated_subagent uuid_valid db0 analysis
          new_subagent_name task_description
          (infer_required_provider task_description) provider_instructions
          new_id with ⟨e | subagent, dbS⟩
      · rw [hs] at hexec
        have h1 := congrArg Prod.fst hexec
        dsimp only at h1
        exact Except.noConfusion h1
      · rw [hs] at hexec
        have h1 := congrArg Prod.fst hexec
        dsimp only at h1
        injection h1 with h2
        have hst : st = (run_subagent_with_auth_check uuid_valid dbS subagent
            task_description request_id "build_new"
            (run_result subagent)).1.2.1 := by
          rw [h2]
        rw [hst]
        exact auth_check_status uuid_valid dbS subagent task_description
          request_id "build_new" (run_result subagent)

/-- Witness for the amended C4: a concrete successful run with intact
delivery makes exactly one callback attempt and returns the result. -/
theorem claim_C4_reporting_witness :
    orchestrate "r2" "task" none (fun _ => Except.error ())
        (Except.ok (RouteDecision.matched c3Subagent))
        (fun _ db => (Except.ok ("ok!", "completed", []), db, []))
        (DBState.mk [] []) none none =
      ("ok!", [(Payload.mk "r2" "completed" "task" (some "match")
        (some "ok!") none none [], true)], DBState.mk [] [], []) := by
  exact (claim_C4_reporting "r2" "task" none (fun _ => Except.error ())
    (Except.ok (RouteDecision.matched c3Subagent))
    (fun _ db => (Except.ok ("ok!", "completed", []), db, []))
    (DBState.mk [] []) none none).2.2.1
    (RouteDecision.matched c3Subagent) "ok!" "completed" []
    (DBState.mk [] []) [] rfl rfl rfl

/-- Concrete routing configuration for C5 (defaults). -/
def c5Cfg : RouterConfig := RouterConfig.mk 2 7 4 true 3 (mkRat 6 10) true

/-- **C5, counterexample**: the claim states that a registry failure
(`get_all_subagents` unavailable) degrades the whole request to a terminal
`failed` callback.  In the code `_decide_route` catches the registry
exception and continues with an empty capability list: on this concrete run
the registry read fails, the decision is build-new, the request executes,
and the single terminal callback carries status `completed`, not
`failed`. -/
theorem claim_C5_counterexample :
    decide_route_full c5Cfg (fun _ _ => none) (Except.error ())
        "install updates" build_new_subagent_name =
      RouteDecision.build_new "auto_install_updates" ∧
    (orchestrate "r1" "install updates" none (fun _ => Except.error ())
        (Except.ok (RouteDecision.build_new "auto_install_updates"))
        (execute_decision (fun _ => true) "install updates" "r1"
          (Except.ok ("auto_system_updates", "installs system updates",
            "run the update commands"))
          (fun _ => "") "u1" (fun _ => "done"))
        (DBState.mk [] []) none none).2.1 =
      [(Payload.mk "r1" "completed" "install updates" (some "build_new")
        (some "done") none none [], true)] := by
  exact ⟨by decide, rfl⟩

/-- **C5 (amended)**: a registry failure is absorbed, not fatal: with
`get_all_subagents` raising, `_decide_route` continues with the empty
capability list, so the routing decision is exactly the empty-registry
decision (for an empty registry the ranking is empty, hence build-new).
Only an exception of the decision logic itself degrades the request to a
single terminal callback with status `failed`, whose user-visible error is
the exception text wrapped as `Could not determine route: ...`, delivered
through the same single reporting step. -/
theorem claim_C5_failure_semantics (cfg : RouterConfig)
    (arbiter : String → List RankedCandidate → Option Subagent)
    (task_description request_id : String) (build_name : String → String)
    (metadata : Option String) (json_loads : String → Except Unit JsonVal)
    (execute : RouteDecision → DBState →
      Except String (String × String × List (String × String)) ×
        DBState × List Effect)
    (db : DBState) (send_fail1 send_fail2 : Option String) :
    (decide_route_full cfg arbiter (Except.error ()) task_description
        build_name =
      decide_route cfg arbiter task_description [] build_name) ∧
    (decide_route_full cfg arbiter (Except.error ()) task_description
        build_name = RouteDecision.build_new (build_name task_description)) ∧
    (∀ e, orchestrate request_id task_description metadata json_loads
        (Except.error e) execute db send_fail1 send_fail2 =
      ("Error while processing request " ++ request_id
          ++ ": Could not determine route: " ++ e,
       [(failPayload request_id task_description
          ("Could not determine route: " ++ e), send_fail2.isNone)],
       db, [])) := by
  refine ⟨rfl, ?_, ?_⟩
  · unfold decide_route_full decide_route
    have hr : rank_existing_subagents (pyLower task_description) [] = [] := by
      unfold rank_existing_subagents
      by_cases h : tokenize (pyLower task_description) = ∅
      · rw [if_pos h]
      · rw [if_neg h]
        rfl
    rw [hr]
  · intro e
    rfl

/-- Witness for the amended C5 at concrete inputs: the registry-failure
decision routes to build-new, and a decision-logic exception produces the
single failed callback. -/
theorem claim_C5_failure_semantics_witness :
    decide_route_full c5Cfg (fun _ _ => none) (Except.error ()) "say hello"
        build_new_subagent_name =
      RouteDecision.build_new (build_new_subagent_name "say hello") ∧
    (orchestrate "r9" "say hello" none (fun _ => Except.error ())
        (Except.error "boom")
        (fun _ db => (Except.ok ("x", "completed", []), db, []))
        (DBState.mk [] []) none none).2.1 =
      [(failPayload "r9" "say hello" "Could not determine route: boom",
        true)] := by
  have h := claim_C5_failure_semantics c5Cfg (fun _ _ => none) "say hello"
    "r9" build_new_subagent_name none (fun _ => Except.error ())
    (fun _ db => (Except.ok ("x", "completed", []), db, []))
    (DBState.mk [] []) none none
  refine ⟨h.2.1, ?_⟩
  rw [h.2.2 "boom"]
  rfl

/-- **C8**: for every synthesis attempt whose oracle description or system
prompt normalizes to the empty string, the spec builder raises
(`RuntimeError`, modelled as `Except.error`), nothing is persisted —
`_store_generated_subagent` propagates the error with the registry exactly
unchanged — the build-new execution fails, and the whole request terminates
with a single `failed` callback carrying that error, the registry still
unchanged. -/
theorem claim_C8_synthesis_gate (uuid_valid : String → Bool) (db : DBState)
    (an ad ap name_hint task_description request_id : String)
    (required_provider : Option String)
    (provider_instructions : String → String) (new_id : String)
    (h : normalize_text_field (some ad) "" 240 = "" ∨
      normalize_text_field (some ap) "" 2400 = "") :
    build_generated_subagent_spec (Except.ok (an, ad, ap)) name_hint
        task_description =
      Except.error
        "orchestrator capability analysis returned incomplete spec fields" ∧
    store_generated_subagent uuid_valid db (Except.ok (an, ad, ap)) name_hint
        task_description required_provider provider_instructions new_id =
      (Except.error
        "orchestrator capability analysis returned incomplete spec fields",
       db) ∧
    (∀ new_name run_result,
      execute_decision uuid_valid task_description request_id
          (Except.ok (an, ad, ap)) provider_instructions new_id run_result
          (RouteDecision.build_new new_name) db =
        (Except.error
          "orchestrator capability analysis returned incomplete spec fields",
         db, [])) ∧
    (∀ metadata json_loads send_fail1 send_fail2 new_name run_result,
      orchestrate request_id task_description metadata json_loads
          (Except.ok (RouteDecision.build_new new_name))
          (execute_decision uuid_valid task_description request_id
            (Except.ok (an, ad, ap)) provider_instructions new_id run_result)
          db send_fail1 send_fail2 =
        ("Error while processing request " ++ request_id ++ ": "
            ++ "orchestrator capability analysis returned incomplete spec fields",
         [(failPayload request_id task_description
            "orchestrator capability analysis returned incomplete spec fields",
           send_fail2.isNone)],
         db, [])) := by
  have hspec : ∀ nh, build_generated_subagent_spec (Except.ok (an, ad, ap))
      nh task_description =
      Except.error
        "orchestrator capability analysis returned incomplete spec fields" := by
    intro nh
    unfold build_generated_subagent_spec
    rcases h with h | h <;> simp [h]
  have hstore : ∀ nh rp, store_generated_subagent uuid_valid db
      (Except.ok (an, ad, ap)) nh task_description rp
      provider_instructions new_id =
      (Except.error
        "orchestrator capability analysis returned incomplete spec fields",
       db) := by
    intro nh rp
    unfold store_generated_subagent
    rw [hspec nh]
  have hexe : ∀ new_name run_result,
      execute_decision uuid_valid task_description request_id
          (Except.ok (an, ad, ap)) provider_instructions new_id run_result
          (RouteDecision.build_new new_name) db =
        (Except.error
          "orchestrator capability analysis returned incomplete spec fields",
         db, []) := by
    intro new_name run_result
    unfold execute_decision
    dsimp only
    rw [hstore new_name (infer_required_provider task_description)]
  refine ⟨hspec name_hint, hstore name_hint required_provider, hexe, ?_⟩
  intro metadata json_loads send_fail1 send_fail2 new_name run_result
  unfold orchestrate
  dsimp only
  rw [hexe new_name run_result]

/-- Witness for C8: an oracle description of pure whitespace normalizes to
empty, so nothing is stored and the registry is unchanged. -/
theorem claim_C8_synthesis_gate_witness :
    store_generated_subagent (fun _ => true) (DBState.mk [] [])
        (Except.ok ("auto_thing", "   ", "do things")) "auto_hint" "task"
        none (fun _ => "") "u1" =
      (Except.error
        "orchestrator capability analysis returned incomplete spec fields",
       DBState.mk [] []) := by
  exact (claim_C8_synthesis_gate (fun _ => true) (DBState.mk [] [])
    "auto_thing" "   " "do things" "auto_hint" "task" "r1" none
    (fun _ => "") "u1" (Or.inl (by decide))).2.1

/-- **C10**: a metadata argument that is empty, missing, not valid JSON, or
parses to a non-object JSON value is silently discarded: metadata parsing
never raises (it is a total function), and the whole request — routing,
execution, result, callback trace, registry state and effects — is
identical to the same request with no metadata, so the terminal callback
payload simply omits the metadata field. -/
theorem claim_C10_metadata_discard (request_id task_description : String)
    (json_loads : String → Except Unit JsonVal)
    (decide_outcome : Except String RouteDecision)
    (execute : RouteDecision → DBState →
      Except String (String × String × List (String × String)) ×
        DBState × List Effect)
    (db : DBState) (send_fail1 send_fail2 : Option String)
    (metadata : Option String)
    (h : metadata = none ∨ metadata = some "" ∨
      (∃ t, metadata = some t ∧ json_loads t = Except.error ()) ∨
      (∃ t v, metadata = some t ∧ json_loads t = Except.ok v ∧
        ∀ fields, v ≠ JsonVal.obj fields)) :
    parse_metadata json_loads metadata = none ∧
    orchestrate request_id task_description metadata json_loads
        decide_outcome execute db send_fail1 send_fail2 =
      orchestrate request_id task_description none json_loads decide_outcome
        execute db send_fail1 send_fail2 := by
  have hpm : parse_metadata json_loads metadata = none := by
    rcases h with rfl | rfl | ⟨t, rfl, hj⟩ | ⟨t, v, rfl, hj, hnv⟩
    · rfl
    · rfl
    · unfold parse_metadata
      dsimp only
      by_cases ht : t = ""
      · rw [if_pos ht]
      · rw [if_neg ht, hj]
    · unfold parse_metadata
      dsimp only
      by_cases ht : t = ""
      · rw [if_pos ht]
      · rw [if_neg ht, hj]
        cases v with
        | obj fields => exact absurd rfl (hnv fields)
        | null => rfl
        | bool b => rfl
        | num q => rfl
        | str s => rfl
        | arr xs => rfl
  refine ⟨hpm, ?_⟩
  unfold orchestrate
  rw [hpm]
  rfl

/-- Witness for C10: a non-JSON metadata string yields exactly the
no-metadata run. -/
theorem claim_C10_metadata_discard_witness :
    orchestrate "r1" "task" (some "not json") (fun _ => Except.error ())
        (Except.ok (RouteDecision.build_new "auto_task"))
        (fun _ db => (Except.ok ("done", "completed", []), db, []))
        (DBState.mk [] []) none none =
      orchestrate "r1" "task" none (fun _ => Except.error ())
        (Except.ok (RouteDecision.build_new "auto_task"))
        (fun _ db => (Except.ok ("done", "completed", []), db, []))
        (DBState.mk [] []) none none := by
  exact (claim_C10_metadata_discard "r1" "task" (fun _ => Except.error ())
    (Except.ok (RouteDecision.build_new "auto_task"))
    (fun _ db => (Except.ok ("done", "completed", []), db, []))
    (DBState.mk [] []) none none (some "not json")
    (Or.inr (Or.inr (Or.inl ⟨"not json", rfl, rfl⟩)))).2

end Pokestrator
